import Mathlib

/-!
Shallow embedding of the response lifecycle store of the vscode-httpyac
repository (file src/responseStore.ts, with the openWith response handler
from its companion handler file). Buffers are modelled as lists of bytes,
uris and opaque string identifiers as natural numbers, and the external
storage provider as an association list from generated uris to byte blobs
threaded through the store state. JavaScript truthiness of optional object
fields is modelled by Option.isSome; the one place where a numeric value
flows through truthiness (the index computation of the active-editor
subscription) is modelled explicitly.
-/

/-- Byte content of a Buffer. -/
abbrev Bytes := List Nat

/-- The response payload fields touched by the store. String-valued fields
(body, parsedBody, prettyPrintBody) carry their content as bytes, since the
store only ever deletes or copies them wholesale; requestBody stands for
request?.body. -/
structure HttpResponse where
  requestBody : Option Bytes
  parsedBody : Option Bytes
  body : Option Bytes
  rawBody : Option Bytes
  prettyPrintBody : Option Bytes
deriving DecidableEq

/-- view.ResponseItem as the store uses it. The flags saveFileFlag and
noResponseViewFlag are the item markers consumed by the first two handlers
of the chain; openWith is the external-viewer preference. The lazy
rehydration closure is modelled by the flag hasLoadResponseBody together
with the loadResponseBody operation on states below. -/
structure ResponseItem where
  id : Nat
  name : Nat
  line : Nat
  extension : Nat
  saveFileFlag : Bool
  noResponseViewFlag : Bool
  openWith : Option Nat
  documentUri : Option Nat
  responseUri : Option Nat
  isCachedResponse : Bool
  hasLoadResponseBody : Bool
  response : HttpResponse
deriving DecidableEq

/-- Durable storage of the storage provider: generated uri keys to blobs. -/
abbrev Storage := List (Nat × Bytes)

/-- Configuration read through getConfigSetting(). maxHistoryItems = 0
models every falsy configured value (0 or unset). -/
structure Config where
  maxHistoryItems : Nat
  responseViewPrettyPrint : Bool
deriving DecidableEq

/-- The mutable state of a ResponseStore instance, together with the
storage provider state and counters recording the externally visible side
effects (history-changed events, external viewer opens, silent saves,
inline previews). -/
structure Store where
  responseCache : List ResponseItem
  storage : Storage
  nextUri : Nat
  historyEnabled : Bool
  prettyPrintDocuments : List Nat
  historyChangedCount : Nat
  externalViewerOpens : Nat
  silentSaves : Nat
  previews : Nat
deriving DecidableEq

/-- storageProvider.writeFile: on success allocates a fresh uri, stores the
bytes and returns the uri; an undeclined result is signalled by the oracle
bit ok. The suggested file name does not key the storage and is omitted. -/
def writeFile (s : Store) (ok : Bool) (bytes : Bytes) : Store × Option Nat :=
  if ok then
    ({ s with storage := (s.nextUri, bytes) :: s.storage, nextUri := s.nextUri + 1 },
      some s.nextUri)
  else (s, none)

/-- storageProvider.deleteFile: removes every blob stored under the uri. -/
def deleteFile (s : Store) (uri : Nat) : Store :=
  { s with storage := s.storage.filter (fun e => e.1 ≠ uri) }

/-- Reading a blob back from durable storage. -/
def lookupStorage (st : Storage) (uri : Nat) : Option Bytes :=
  match st.find? (fun e => e.1 == uri) with
  | some e => some e.2
  | none => none

/-- Reference aliasing: mutating a ResponseItem object mutates the cache
entry holding the same object. Entries are identified by id. -/
def updateCache (cache : List ResponseItem) (item : ResponseItem) : List ResponseItem :=
  cache.map (fun e => if e.id = item.id then item else e)

/-- shrinkResponseItem: delete request?.body, parsedBody, body, rawBody and
prettyPrintBody. -/
def shrinkResponseItem (_r : HttpResponse) : HttpResponse :=
  { requestBody := none, parsedBody := none, body := none, rawBody := none,
    prettyPrintBody := none }

/-- The rehydration closure installed by shrink: read the blob at the
captured uri, restore rawBody (and body as its decoded copy), clear
isCachedResponse and remove the closure. Returns none when the read fails
(the captured uri has no blob), modelling the propagated exception. -/
def loadResponseBody (s : Store) (item : ResponseItem) : Option (Store × ResponseItem) :=
  match item.responseUri with
  | some u =>
    match lookupStorage s.storage u with
    | some bytes =>
      let item1 := { item with
        response := { item.response with rawBody := some bytes, body := some bytes },
        isCachedResponse := false,
        hasLoadResponseBody := false }
      some ({ s with responseCache := updateCache s.responseCache item1 }, item1)
    | none => none
  | none => none

/-- responseItem.loadResponseBody?.() — run the closure if installed,
otherwise a no-op. -/
def runLoadOpt (s : Store) (item : ResponseItem) : Option (Store × ResponseItem) :=
  if item.hasLoadResponseBody then loadResponseBody s item
  else some (s, item)

/-- ResponseStore.remove: locate by id; when found, delete the durable copy
named by the argument (when present), splice the entry out, fire
history-changed and drop the has-history flag when the cache became empty;
when absent return false untouched. -/
def remove (s : Store) (item : ResponseItem) : Store × Bool :=
  match s.responseCache.findIdx? (fun e => e.id == item.id) with
  | some idx =>
    let s1 :=
      match item.responseUri with
      | some u => deleteFile s u
      | none => s
    let cache1 := s1.responseCache.eraseIdx idx
    let s2 := { s1 with
      responseCache := cache1,
      historyChangedCount := s1.historyChangedCount + 1,
      historyEnabled := if cache1.isEmpty then false else s1.historyEnabled }
    (s2, true)
  | none => (s, false)

/-- The effective history capacity: config.maxHistoryItems || 50. -/
def capacity (cfg : Config) : Nat :=
  if cfg.maxHistoryItems = 0 then 50 else cfg.maxHistoryItems

/-- ResponseStore.addToCache: splice the item in at index 0, truncate the
array to the capacity, fire history-changed and publish the has-history
context flag. -/
def addToCache (s : Store) (cfg : Config) (item : ResponseItem) : Store :=
  let cache1 := (item :: s.responseCache).take (capacity cfg)
  { s with
    responseCache := cache1,
    historyChangedCount := s.historyChangedCount + 1,
    historyEnabled := !cache1.isEmpty }

/-- ResponseStore.shrink: when a raw body is resident, reuse the existing
responseUri or persist the raw body; on a usable location clear the large
fields, record the uri, mark the item cached and install the rehydration
closure; on no usable location fall back to remove. -/
def shrink (s : Store) (item : ResponseItem) (writeOk : Bool) : Store × ResponseItem :=
  match item.response.rawBody with
  | none => (s, item)
  | some bytes =>
    let su :=
      match item.responseUri with
      | some u => (s, some u)
      | none => writeFile s writeOk bytes
    match su.2 with
    | some uri =>
      let item1 := { item with
        response := shrinkResponseItem item.response,
        responseUri := some uri,
        isCachedResponse := true,
        hasLoadResponseBody := true }
      ({ su.1 with responseCache := updateCache su.1.responseCache item1 }, item1)
    | none => ((remove su.1 item).1, item)

/-- ResponseStore.prettyPrint on an editor showing document uri editorUri,
with the currently active editor document given by activeUri: when the
editor is the active one, run the format command and, when it reports
success, push the document uri onto the deferred queue; when the editor is
not active, push the uri without formatting. -/
def prettyPrint (s : Store) (activeUri : Option Nat) (editorUri : Nat) (formatOk : Bool) : Store :=
  if activeUri = some editorUri then
    if formatOk then
      { s with prettyPrintDocuments := s.prettyPrintDocuments ++ [editorUri] }
    else s
  else
    { s with prettyPrintDocuments := s.prettyPrintDocuments ++ [editorUri] }

/-- Oracle inputs of one show pass: the success bit of the writeFile issued
by the openWith handler, the result of the format command, and the document
uri of the currently active editor (none when no editor is active). -/
structure ShowOracle where
  openWithWriteOk : Bool
  formatOk : Bool
  activeEditor : Option Nat
deriving DecidableEq

/-- The pretty-print step run after a handler accepted, guarded by the
responseViewPrettyPrint configuration and the presence of an active
editor. -/
def showPretty (s : Store) (cfg : Config) (o : ShowOracle) : Store :=
  if cfg.responseViewPrettyPrint then
    match o.activeEditor with
    | some u => prettyPrint s (some u) u o.formatOk
    | none => s
  else s

/-- The four strategies of the handler chain, in priority order. -/
inductive HandlerKind where
  | saveFile
  | noResponseView
  | openWithViewer
  | preview
deriving DecidableEq

/-- openWithResponseHandler (from the companion handler source file): when
the item carries an openWith preference, run the rehydration closure when
installed, and when a raw body is then resident persist it; on a usable
uri record it as documentUri, delegate opening to the editor and report
success; otherwise report non-acceptance. Returns none when the
rehydration closure propagated a failure. -/
def openWithStep (s : Store) (item : ResponseItem) (writeOk : Bool) :
    Option (Store × ResponseItem × Bool) :=
  match item.openWith with
  | none => some (s, item, false)
  | some _viewer =>
    match runLoadOpt s item with
    | none => none
    | some (s1, item1) =>
      match item1.response.rawBody with
      | none => some (s1, item1, false)
      | some bytes =>
        let su := writeFile s1 writeOk bytes
        match su.2 with
        | none => some (su.1, item1, false)
        | some uri =>
          let item2 := { item1 with documentUri := some uri }
          some ({ su.1 with
            externalViewerOpens := su.1.externalViewerOpens + 1,
            responseCache := updateCache su.1.responseCache item2 }, item2, true)

/-- ResponseStore.show: iterate the fixed handler chain
[saveFile, noResponseView, openWith, preview] until the first handler
reports success, run the pretty-print step after a success, then shrink the
item. The save-silently, no-view and preview handlers are not part of the
sources at hand. Modelled from the spec: save-silently applies when the
item is flagged to bypass any visible view, writes the payload silently and
reports success; no-view applies when the item is flagged to suppress
presentation and reports success while doing nothing visible; inline
preview is the catch-all and always reports success. The returned list
records the handlers invoked, in order; none models a handler exception
aborting the chain and the whole show sequence. -/
def showResponse (s : Store) (item : ResponseItem) (cfg : Config) (o : ShowOracle)
    (shrinkWriteOk : Bool) : Option (Store × ResponseItem × List HandlerKind) :=
  if item.saveFileFlag then
    let s1 := { s with silentSaves := s.silentSaves + 1 }
    let s2 := showPretty s1 cfg o
    let sr := shrink s2 item shrinkWriteOk
    some (sr.1, sr.2, [HandlerKind.saveFile])
  else if item.noResponseViewFlag then
    let s2 := showPretty s cfg o
    let sr := shrink s2 item shrinkWriteOk
    some (sr.1, sr.2, [HandlerKind.saveFile, HandlerKind.noResponseView])
  else
    match openWithStep s item o.openWithWriteOk with
    | none => none
    | some (s1, item1, accepted) =>
      if accepted then
        let s2 := showPretty s1 cfg o
        let sr := shrink s2 item1 shrinkWriteOk
        some (sr.1, sr.2,
          [HandlerKind.saveFile, HandlerKind.noResponseView, HandlerKind.openWithViewer])
      else
        let s2 := { s1 with previews := s1.previews + 1 }
        let s3 := showPretty s2 cfg o
        let sr := shrink s3 item1 shrinkWriteOk
        some (sr.1, sr.2,
          [HandlerKind.saveFile, HandlerKind.noResponseView, HandlerKind.openWithViewer,
            HandlerKind.preview])

/-- ResponseStore.add: wrap the response (the ResponseItem is built by the
caller here, since its constructor lives outside the store), show it, then
add it to the cache. -/
def add (s : Store) (item : ResponseItem) (cfg : Config) (o : ShowOracle)
    (shrinkWriteOk : Bool) : Option Store :=
  match showResponse s item cfg o shrinkWriteOk with
  | none => none
  | some (s1, item1, _log) => some (addToCache s1 cfg item1)

/-- A sequence of sequential add calls sharing one configuration and one
oracle, every persistence succeeding. -/
def addSeq (cfg : Config) (o : ShowOracle) : Store → List ResponseItem → Option Store
  | s, [] => some s
  | s, item :: rest =>
    match add s item cfg o true with
    | some s1 => addSeq cfg o s1 rest
    | none => none

/-- ResponseStore.clear: delete every durable copy, empty the history, fire
history-changed once and drop the has-history flag. -/
def clear (s : Store) : Store :=
  let s1 := s.responseCache.foldl
    (fun acc item =>
      match item.responseUri with
      | some u => deleteFile acc u
      | none => acc) s
  { s1 with
    responseCache := [],
    historyChangedCount := s1.historyChangedCount + 1,
    historyEnabled := false }

/-- The onDidChangeActiveTextEditor subscription: compute the queue index
of the newly active document uri through JavaScript truthiness — the
expression (editor?.document && indexOf(uri)) || minus one maps the index 0
to minus one, so an entry at the head of the queue never matches — and when
the resulting index is non-negative, pretty-print the editor and splice the
entry out at that index. -/
def onDidChangeActiveTextEditor (s : Store) (editorUri : Option Nat) (formatOk : Bool) : Store :=
  match editorUri with
  | none => s
  | some u =>
    let rawIdx : Int :=
      match s.prettyPrintDocuments.findIdx? (fun d => d == u) with
      | some i => (i : Int)
      | none => -1
    let idxOfDocument : Int := if rawIdx = 0 then -1 else rawIdx
    if 0 ≤ idxOfDocument then
      let s1 := prettyPrint s (some u) u formatOk
      { s1 with prettyPrintDocuments := s1.prettyPrintDocuments.eraseIdx idxOfDocument.toNat }
    else s

/-! Helper lemmas. -/

/-! Concrete values used by the witnesses and counterexamples. -/

def demoResponse : HttpResponse :=
  { requestBody := some [9], parsedBody := some [8], body := some [7],
    rawBody := some [1, 2, 3], prettyPrintBody := none }

def demoItem : ResponseItem :=
  { id := 7, name := 1, line := 0, extension := 2, saveFileFlag := false,
    noResponseViewFlag := false, openWith := none, documentUri := none,
    responseUri := none, isCachedResponse := false, hasLoadResponseBody := false,
    response := demoResponse }

def demoStore : Store :=
  { responseCache := [], storage := [], nextUri := 0, historyEnabled := false,
    prettyPrintDocuments := [], historyChangedCount := 0, externalViewerOpens := 0,
    silentSaves := 0, previews := 0 }

def demoOracle : ShowOracle :=
  { openWithWriteOk := true, formatOk := true, activeEditor := none }

def c4Cfg : Config := { maxHistoryItems := 2, responseViewPrettyPrint := false }

def c4Out : Store := (add demoStore demoItem c4Cfg demoOracle true).getD demoStore

def c10Cfg : Config := { maxHistoryItems := 0, responseViewPrettyPrint := false }

def c10Out : Store := (add demoStore demoItem c10Cfg demoOracle true).getD demoStore

def c8Item : ResponseItem := { demoItem with responseUri := some 0 }

def c8Store : Store :=
  { demoStore with responseCache := [c8Item], storage := [(0, [1, 2, 3])] }

def c8Absent : ResponseItem := { demoItem with id := 99 }

def c5Item : ResponseItem :=
  { demoItem with noResponseViewFlag := true, openWith := some 3 }

def c9Cfg : Config := { maxHistoryItems := 2, responseViewPrettyPrint := true }

def c9FailOracle : ShowOracle :=
  { openWithWriteOk := true, formatOk := false, activeEditor := some 5 }

def c9GoodOracle : ShowOracle :=
  { openWithWriteOk := true, formatOk := true, activeEditor := some 5 }

def c9QueueStore : Store := { demoStore with prettyPrintDocuments := [5] }

def c9QueueStore2 : Store := { demoStore with prettyPrintDocuments := [4, 5] }

/-- An item as produced by a fresh response: resident raw body, no durable
copy yet, no rehydration closure, no external-viewer preference. -/
def goodItem (item : ResponseItem) : Prop :=
  item.response.rawBody.isSome = true ∧ item.responseUri = none ∧
  item.hasLoadResponseBody = false ∧ item.openWith = none

instance (item : ResponseItem) : Decidable (goodItem item) := by
  unfold goodItem
  infer_instance

def c2ItemB : ResponseItem :=
  { demoItem with id := 8, response := { demoResponse with rawBody := some [4, 5] } }

def c2Cfg : Config := { maxHistoryItems := 1, responseViewPrettyPrint := false }

theorem capacity_pos (cfg : Config) : 0 < capacity cfg := by
  unfold capacity
  split <;> omega

theorem shrink_snd_id (s : Store) (item : ResponseItem) (w : Bool) :
    ((shrink s item w).2).id = item.id := by
  cases hb : item.response.rawBody with
  | none => simp [shrink, hb]
  | some bytes =>
    cases hu : item.responseUri with
    | some u => simp [shrink, hb, hu]
    | none => cases w <;> simp [shrink, writeFile, hb, hu]

theorem loadResponseBody_snd_id (s : Store) (item : ResponseItem) (s1 : Store)
    (i1 : ResponseItem) (h : loadResponseBody s item = some (s1, i1)) : i1.id = item.id := by
  cases hu : item.responseUri with
  | none => simp [loadResponseBody, hu] at h
  | some u =>
    cases hl : lookupStorage s.storage u with
    | none => simp [loadResponseBody, hu, hl] at h
    | some bytes =>
      simp only [loadResponseBody, hu, hl, Option.some.injEq, Prod.mk.injEq] at h
      rw [← h.2]

theorem openWithStep_snd_id (s : Store) (item : ResponseItem) (ok : Bool) (s1 : Store)
    (i1 : ResponseItem) (b : Bool) (h : openWithStep s item ok = some (s1, i1, b)) :
    i1.id = item.id := by
  unfold openWithStep runLoadOpt at h
  split at h
  case _ =>
    simp only [Option.some.injEq, Prod.mk.injEq] at h
    rw [← h.2.1]
  case _ v hv =>
    split at h
    case _ => exact absurd h (by simp)
    case _ p s2 i2 heq =>
      have hid : i2.id = item.id := by
        by_cases hl : item.hasLoadResponseBody
        · rw [if_pos hl] at heq
          exact loadResponseBody_snd_id s item s2 i2 heq
        · rw [if_neg hl] at heq
          simp only [Option.some.injEq, Prod.mk.injEq] at heq
          rw [← heq.2]
      split at h
      case _ =>
        simp only [Option.some.injEq, Prod.mk.injEq] at h
        rw [← h.2.1, hid]
      case _ bytes hb =>
        cases ok <;> simp [writeFile] at h <;> rw [← h.2.1] <;> simp [hid]

theorem remove_fst_fields (s : Store) (item : ResponseItem) :
    ((remove s item).1).prettyPrintDocuments = s.prettyPrintDocuments ∧
    ((remove s item).1).externalViewerOpens = s.externalViewerOpens ∧
    ((remove s item).1).nextUri = s.nextUri := by
  unfold remove
  split
  · cases hu : item.responseUri <;> simp [deleteFile, hu]
  · simp

theorem shrink_fst_fields (s : Store) (item : ResponseItem) (w : Bool) :
    ((shrink s item w).1).prettyPrintDocuments = s.prettyPrintDocuments ∧
    ((shrink s item w).1).externalViewerOpens = s.externalViewerOpens := by
  cases hb : item.response.rawBody with
  | none => simp [shrink, hb]
  | some bytes =>
    cases hu : item.responseUri with
    | some u => simp [shrink, hb, hu]
    | none =>
      cases w with
      | false =>
        have hr := remove_fst_fields s item
        simp [shrink, writeFile, hb, hu, hr.1, hr.2.1]
      | true => simp [shrink, writeFile, hb, hu]

theorem showPretty_fields (s : Store) (cfg : Config) (o : ShowOracle) :
    (showPretty s cfg o).externalViewerOpens = s.externalViewerOpens ∧
    (showPretty s cfg o).responseCache = s.responseCache ∧
    (showPretty s cfg o).storage = s.storage ∧
    (showPretty s cfg o).nextUri = s.nextUri := by
  unfold showPretty prettyPrint
  split
  · cases hae : o.activeEditor with
    | none => simp
    | some u => cases hf : o.formatOk <;> simp [hf]
  · simp

theorem showResponse_snd_id (s : Store) (item : ResponseItem) (cfg : Config) (o : ShowOracle)
    (w : Bool) (r : Store × ResponseItem × List HandlerKind)
    (h : showResponse s item cfg o w = some r) : r.2.1.id = item.id := by
  unfold showResponse at h
  by_cases hsf : item.saveFileFlag
  · rw [if_pos hsf] at h
    simp only [Option.some.injEq] at h
    rw [← h]
    exact shrink_snd_id _ item w
  · rw [if_neg hsf] at h
    by_cases hnv : item.noResponseViewFlag
    · rw [if_pos hnv] at h
      simp only [Option.some.injEq] at h
      rw [← h]
      exact shrink_snd_id _ item w
    · rw [if_neg hnv] at h
      cases ho : openWithStep s item o.openWithWriteOk with
      | none => rw [ho] at h; exact absurd h (by simp)
      | some p =>
        obtain ⟨s1, i1, acc⟩ := p
        have hid : i1.id = item.id :=
          openWithStep_snd_id s item o.openWithWriteOk s1 i1 acc ho
        rw [ho] at h
        simp only [] at h
        cases acc with
        | true =>
          simp only [if_true, Option.some.injEq] at h
          rw [← h]
          show ((shrink _ i1 w).2).id = item.id
          rw [shrink_snd_id, hid]
        | false =>
          simp only [Bool.false_eq_true, if_false, Option.some.injEq] at h
          rw [← h]
          show ((shrink _ i1 w).2).id = item.id
          rw [shrink_snd_id, hid]

theorem add_result_shape (s : Store) (item : ResponseItem) (cfg : Config) (o : ShowOracle)
    (w : Bool) (s' : Store) (h : add s item cfg o w = some s') :
    s'.responseCache.length ≤ capacity cfg ∧
    s'.responseCache.head?.map ResponseItem.id = some item.id := by
  unfold add at h
  cases hs : showResponse s item cfg o w with
  | none => rw [hs] at h; exact absurd h (by simp)
  | some r =>
    rw [hs] at h
    simp only [Option.some.injEq] at h
    have hid : r.2.1.id = item.id := showResponse_snd_id s item cfg o w r hs
    subst h
    constructor
    · simp [addToCache, List.length_take]
    · have hcap : capacity cfg ≠ 0 := Nat.pos_iff_ne_zero.mp (capacity_pos cfg)
      simp [addToCache, List.head?_take, hcap, hid]

theorem findIdx?_lt_length {α : Type} (p : α → Bool) :
    ∀ (l : List α) (j i : Nat), List.findIdx? p l j = some i → i < j + l.length := by
  intro l
  induction l with
  | nil => intro j i h; simp [List.findIdx?_nil] at h
  | cons a as ih =>
    intro j i h
    rw [List.findIdx?_cons] at h
    by_cases hp : p a
    · rw [if_pos hp] at h
      simp only [Option.some.injEq] at h
      simp [← h]
    · rw [if_neg hp] at h
      have := ih (j + 1) i h
      simp only [List.length_cons]
      omega

theorem lookupStorage_deleteFile (s : Store) (u : Nat) :
    lookupStorage (deleteFile s u).storage u = none := by
  unfold deleteFile lookupStorage
  have hfind : List.find? (fun e => e.1 == u)
      (s.storage.filter (fun e => decide (e.1 ≠ u))) = none := by
    rw [List.find?_eq_none]
    intro e he
    have h2 := (List.mem_filter.mp he).2
    simp at h2 ⊢
    exact h2
  rw [hfind]

/-- Claim C4: for all sequences of add calls, after each completed call the
history length is at most the configured maximum (with 50 standing in for a
falsy configured value) and the item most recently added is at index 0.
Stated for one add step from an arbitrary store state, which covers every
state after every call of every sequence; the newest-at-index-0 part holds
even when persistence failed, so the assumption of the claim is not
needed. -/
theorem c4_history_bounded_and_newest_first (s : Store) (item : ResponseItem)
    (cfg : Config) (o : ShowOracle) (w : Bool) (s' : Store)
    (h : add s item cfg o w = some s') :
    s'.responseCache.length ≤ capacity cfg ∧
    s'.responseCache.head?.map ResponseItem.id = some item.id :=
  add_result_shape s item cfg o w s' h

theorem c4_history_bounded_witness :
    c4Out.responseCache.length ≤ capacity c4Cfg ∧
    c4Out.responseCache.head?.map ResponseItem.id = some demoItem.id :=
  c4_history_bounded_and_newest_first demoStore demoItem c4Cfg demoOracle true c4Out
    (by decide)

/-- Claim C10: with a falsy configured maxHistoryItems (0), insertion trims
the history to the default capacity of 50, not to 0: the newly added item
is still present at index 0 after the add. -/
theorem c10_falsy_max_trims_to_default (s : Store) (item : ResponseItem) (cfg : Config)
    (o : ShowOracle) (w : Bool) (s' : Store) (hm : cfg.maxHistoryItems = 0)
    (h : add s item cfg o w = some s') :
    s'.responseCache.head?.map ResponseItem.id = some item.id ∧
    s'.responseCache.length ≤ 50 := by
  have hs := add_result_shape s item cfg o w s' h
  have hcap : capacity cfg = 50 := by simp [capacity, hm]
  exact ⟨hs.2, hcap ▸ hs.1⟩

theorem c10_falsy_max_witness :
    c10Out.responseCache.head?.map ResponseItem.id = some demoItem.id ∧
    c10Out.responseCache.length ≤ 50 :=
  c10_falsy_max_trims_to_default demoStore demoItem c10Cfg demoOracle true c10Out rfl
    (by decide)

/-- Claim C6: on an item whose shrink completed without eviction (a raw
body either absent, already persisted, or persisted by a successful write),
a second shrink is a no-op: same store, same item, no further write, for
any outcome of the second write oracle. -/
theorem c6_shrink_idempotent (s : Store) (item : ResponseItem) (w1 w2 : Bool)
    (h : item.response.rawBody.isSome → (item.responseUri.isSome ∨ w1 = true)) :
    shrink (shrink s item w1).1 (shrink s item w1).2 w2 = shrink s item w1 := by
  cases hb : item.response.rawBody with
  | none => simp [shrink, hb]
  | some bytes =>
    rcases h (by simp [hb]) with hu | hw
    · obtain ⟨u, hu⟩ := Option.isSome_iff_exists.mp hu
      simp [shrink, hb, hu, shrinkResponseItem]
    · subst hw
      cases hu : item.responseUri with
      | some u => simp [shrink, hb, hu, shrinkResponseItem]
      | none => simp [shrink, writeFile, hb, hu, shrinkResponseItem]

theorem c6_shrink_idempotent_witness :
    shrink (shrink demoStore demoItem true).1 (shrink demoStore demoItem true).2 false
      = shrink demoStore demoItem true :=
  c6_shrink_idempotent demoStore demoItem true false (fun _ => Or.inr rfl)

/-- Claim C7: for an item successfully shrunk by a fresh persistence,
running the installed rehydration operation restores a raw body
byte-for-byte equal to the original, clears isCachedResponse and removes
the rehydration operation (single use). The storage provider of the model
round-trips bytes exactly. -/
theorem c7_load_roundtrip (s : Store) (item : ResponseItem) (b : Bytes)
    (hb : item.response.rawBody = some b) (hu : item.responseUri = none) :
    (loadResponseBody (shrink s item true).1 (shrink s item true).2).map
      (fun p => (p.2.response.rawBody, p.2.isCachedResponse, p.2.hasLoadResponseBody))
      = some (some b, false, false) := by
  simp [shrink, writeFile, hb, hu, shrinkResponseItem, loadResponseBody, lookupStorage,
    List.find?_cons]

theorem c7_load_roundtrip_witness :
    (loadResponseBody (shrink demoStore demoItem true).1 (shrink demoStore demoItem true).2).map
      (fun p => (p.2.response.rawBody, p.2.isCachedResponse, p.2.hasLoadResponseBody))
      = some (some [1, 2, 3], false, false) :=
  c7_load_roundtrip demoStore demoItem [1, 2, 3] rfl rfl

/-- Claim C8: remove on an id not present returns false and leaves the
whole store untouched; remove on a present id returns true, shrinks the
history by exactly one entry, and deletes the durable copy of the item when
one exists. -/
theorem c8_remove_semantics (s : Store) (item : ResponseItem) :
    ((∀ e ∈ s.responseCache, e.id ≠ item.id) → remove s item = (s, false)) ∧
    ((∃ e ∈ s.responseCache, e.id = item.id) →
      (remove s item).2 = true ∧
      (remove s item).1.responseCache.length + 1 = s.responseCache.length ∧
      (∀ u, item.responseUri = some u →
        lookupStorage ((remove s item).1).storage u = none)) := by
  constructor
  · intro habs
    have hnone : s.responseCache.findIdx? (fun e => e.id == item.id) = none := by
      rw [List.findIdx?_eq_none_iff]
      intro x hx
      simpa using habs x hx
    simp [remove, hnone]
  · rintro ⟨e, he, hei⟩
    cases hidx : s.responseCache.findIdx? (fun e => e.id == item.id) with
    | none =>
      exfalso
      have := (List.findIdx?_eq_none_iff.mp hidx) e he
      simp [hei] at this
    | some idx =>
      have hlt : idx < s.responseCache.length := by
        have := findIdx?_lt_length _ s.responseCache 0 idx hidx
        omega
      refine ⟨by simp [remove, hidx], ?_, ?_⟩
      · cases hu : item.responseUri with
        | none =>
          simp [remove, hidx, hu, List.length_eraseIdx, hlt]
          omega
        | some u =>
          simp [remove, hidx, hu, deleteFile, List.length_eraseIdx, hlt]
          omega
      · intro u hu
        simp [remove, hidx, hu]
        exact lookupStorage_deleteFile s u

theorem c8_remove_semantics_witness :
    remove c8Store c8Absent = (c8Store, false) ∧
    ((remove c8Store c8Item).2 = true ∧
      (remove c8Store c8Item).1.responseCache.length + 1 = c8Store.responseCache.length ∧
      (∀ u, c8Item.responseUri = some u →
        lookupStorage ((remove c8Store c8Item).1).storage u = none)) :=
  ⟨(c8_remove_semantics c8Store c8Absent).1 (by decide),
    (c8_remove_semantics c8Store c8Item).2 (by decide)⟩

/-- Claim C5: the handler chain is evaluated in the fixed priority order
save-silently, no-view, open-with-external-viewer, inline-preview, and the
first truthy result wins with no further handler invoked: for an item
flagged no-view and carrying an openWith preference, exactly the first two
handlers are invoked, the no-view handler wins, and the external viewer is
never opened (its open counter is unchanged by the whole show pass). -/
theorem c5_no_view_beats_open_with (s : Store) (item : ResponseItem) (cfg : Config)
    (o : ShowOracle) (w : Bool)
    (hsf : item.saveFileFlag = false) (hnv : item.noResponseViewFlag = true)
    (hov : item.openWith.isSome) :
    (showResponse s item cfg o w).map (fun r => (r.2.2, r.1.externalViewerOpens))
      = some ([HandlerKind.saveFile, HandlerKind.noResponseView], s.externalViewerOpens) := by
  unfold showResponse
  rw [if_neg (by simp [hsf]), if_pos hnv]
  have h1 := (shrink_fst_fields (showPretty s cfg o) item w).2
  have h2 := (showPretty_fields s cfg o).1
  simp [h1, h2]

theorem c5_no_view_beats_open_with_witness :
    (showResponse demoStore c5Item c4Cfg demoOracle true).map
      (fun r => (r.2.2, r.1.externalViewerOpens))
      = some ([HandlerKind.saveFile, HandlerKind.noResponseView],
          demoStore.externalViewerOpens) :=
  c5_no_view_beats_open_with demoStore c5Item c4Cfg demoOracle true rfl rfl (by decide)

theorem updateCache_fresh (c : List ResponseItem) (it : ResponseItem)
    (h : ∀ e ∈ c, e.id ≠ it.id) : updateCache c it = c := by
  unfold updateCache
  induction c with
  | nil => rfl
  | cons a as ih =>
    have ha : a.id ≠ it.id := h a (by simp)
    simp only [List.map_cons, if_neg ha, List.cons.injEq, true_and]
    exact ih (fun e he => h e (by simp [he]))

theorem shrink_write_fail (s : Store) (item : ResponseItem)
    (hb : item.response.rawBody.isSome) (hu : item.responseUri = none)
    (hfresh : ∀ e ∈ s.responseCache, e.id ≠ item.id) :
    shrink s item false = (s, item) := by
  obtain ⟨b, hb'⟩ := Option.isSome_iff_exists.mp hb
  have hnone : s.responseCache.findIdx? (fun e => e.id == item.id) = none := by
    rw [List.findIdx?_eq_none_iff]
    intro x hx
    simpa using hfresh x hx
  simp [shrink, writeFile, hb', hu, remove, hnone]

theorem showResponse_isSome_of_noLoad (s : Store) (item : ResponseItem) (cfg : Config)
    (o : ShowOracle) (w : Bool) (hl : item.hasLoadResponseBody = false) :
    (showResponse s item cfg o w).isSome := by
  unfold showResponse
  by_cases hsf : item.saveFileFlag
  · simp [hsf]
  · by_cases hnv : item.noResponseViewFlag
    · simp [hsf, hnv]
    · have hstep : (openWithStep s item o.openWithWriteOk).isSome := by
        cases ho : item.openWith with
        | none => simp [openWithStep, ho]
        | some v =>
          cases hrb : item.response.rawBody with
          | none => simp [openWithStep, runLoadOpt, ho, hl, hrb]
          | some b =>
            cases how : o.openWithWriteOk <;>
              simp [openWithStep, runLoadOpt, ho, hl, hrb, writeFile]
      obtain ⟨p, hp⟩ := Option.isSome_iff_exists.mp hstep
      obtain ⟨s1, i1, acc⟩ := p
      cases acc <;> simp [hsf, hnv, hp]

theorem updateCache_map_id (c : List ResponseItem) (it : ResponseItem) :
    (updateCache c it).map ResponseItem.id = c.map ResponseItem.id := by
  unfold updateCache
  rw [List.map_map]
  induction c with
  | nil => rfl
  | cons a as ih =>
    simp only [List.map_cons, ih, List.cons.injEq, and_true]
    by_cases hc : a.id = it.id
    · simp [hc]
    · simp [hc]

theorem openWithStep_noLoad (s : Store) (item : ResponseItem) (ok : Bool)
    (s1 : Store) (i1 : ResponseItem) (acc : Bool)
    (hl : item.hasLoadResponseBody = false)
    (h : openWithStep s item ok = some (s1, i1, acc)) :
    i1.response = item.response ∧ i1.responseUri = item.responseUri ∧ i1.id = item.id ∧
    s1.responseCache.map ResponseItem.id = s.responseCache.map ResponseItem.id := by
  cases ho : item.openWith with
  | none =>
    simp only [openWithStep, ho, Option.some.injEq, Prod.mk.injEq] at h
    obtain ⟨h1, h2, h3⟩ := h
    subst h1
    subst h2
    simp
  | some v =>
    cases hrb : item.response.rawBody with
    | none =>
      simp only [openWithStep, runLoadOpt, ho, hl, Bool.false_eq_true, if_false, hrb,
        Option.some.injEq, Prod.mk.injEq] at h
      obtain ⟨h1, h2, h3⟩ := h
      subst h1
      subst h2
      simp
    | some b =>
      cases hok : ok with
      | false =>
        simp only [openWithStep, runLoadOpt, ho, hl, hok, Bool.false_eq_true, if_false, hrb,
          writeFile, if_true, Option.some.injEq, Prod.mk.injEq] at h
        obtain ⟨h1, h2, h3⟩ := h
        subst h1
        subst h2
        simp
      | true =>
        simp only [openWithStep, runLoadOpt, ho, hl, hok, Bool.false_eq_true, if_false, hrb,
          writeFile, if_true, eq_self_iff_true, Option.some.injEq, Prod.mk.injEq] at h
        obtain ⟨h1, h2, h3⟩ := h
        subst h1
        subst h2
        refine ⟨rfl, rfl, rfl, ?_⟩
        simp [updateCache_map_id]

theorem showResponse_fail_raw (s : Store) (item : ResponseItem) (cfg : Config)
    (o : ShowOracle) (r : Store × ResponseItem × List HandlerKind)
    (hb : item.response.rawBody.isSome) (hu : item.responseUri = none)
    (hl : item.hasLoadResponseBody = false)
    (hfresh : ∀ e ∈ s.responseCache, e.id ≠ item.id)
    (h : showResponse s item cfg o false = some r) :
    r.2.1.response.rawBody = item.response.rawBody := by
  unfold showResponse at h
  by_cases hsf : item.saveFileFlag
  · rw [if_pos hsf] at h
    simp only [] at h
    rw [shrink_write_fail _ item hb hu
      (by rw [(showPretty_fields _ cfg o).2.1]; exact hfresh)] at h
    simp only [Option.some.injEq] at h
    rw [← h]
  · rw [if_neg hsf] at h
    by_cases hnv : item.noResponseViewFlag
    · rw [if_pos hnv] at h
      simp only [] at h
      rw [shrink_write_fail _ item hb hu
        (by rw [(showPretty_fields _ cfg o).2.1]; exact hfresh)] at h
      simp only [Option.some.injEq] at h
      rw [← h]
    · rw [if_neg hnv] at h
      cases hstep : openWithStep s item o.openWithWriteOk with
      | none => rw [hstep] at h; exact absurd h (by simp)
      | some p =>
        obtain ⟨s1, i1, acc⟩ := p
        obtain ⟨hresp, huri, hid, hci⟩ :=
          openWithStep_noLoad s item o.openWithWriteOk s1 i1 acc hl hstep
        have hfresh1 : ∀ e ∈ s1.responseCache, e.id ≠ i1.id := by
          intro e he
          have hmem : e.id ∈ s1.responseCache.map ResponseItem.id :=
            List.mem_map_of_mem _ he
          rw [hci] at hmem
          obtain ⟨e2, he2, heq⟩ := List.mem_map.mp hmem
          rw [hid, ← heq]
          exact hfresh e2 he2
        have hb1 : i1.response.rawBody.isSome := by rw [hresp]; exact hb
        have hu1 : i1.responseUri = none := by rw [huri]; exact hu
        rw [hstep] at h
        cases acc with
        | true =>
          simp only [if_true] at h
          rw [shrink_write_fail _ i1 hb1 hu1
            (by rw [(showPretty_fields s1 cfg o).2.1]; exact hfresh1)] at h
          simp only [Option.some.injEq] at h
          rw [← h]
          show i1.response.rawBody = item.response.rawBody
          rw [hresp]
        | false =>
          simp only [Bool.false_eq_true, if_false] at h
          rw [shrink_write_fail _ i1 hb1 hu1
            (by rw [(showPretty_fields _ cfg o).2.1]; exact hfresh1)] at h
          simp only [Option.some.injEq] at h
          rw [← h]
          show i1.response.rawBody = item.response.rawBody
          rw [hresp]

/-- Claim C1 counterexample: add with a persistence failure during the
shrink step keeps the item in history. With the empty store and an item
holding raw body [1, 2, 3], an add whose shrink write fails ends with the
item still in history, body intact, and nothing in durable storage —
against the claim that no item with that id remains in history. -/
theorem c1_counterexample :
    (add demoStore demoItem c4Cfg demoOracle false).map
      (fun s => (s.responseCache.map (fun e => (e.id, e.response.rawBody)), s.storage))
      = some ([(7, some [1, 2, 3])], []) := by
  decide

/-- Claim C1 amended: during add, a persistence failure in shrink does not
evict the item: the fallback remove runs before the item was inserted into
history, finds nothing by id, and the item is afterwards inserted at index
0 with its raw body intact. Eviction on persistence failure can only affect
an item already present in history. -/
theorem c1_amended_failed_persistence_keeps_item (s : Store) (item : ResponseItem)
    (cfg : Config) (o : ShowOracle)
    (hb : item.response.rawBody.isSome) (hu : item.responseUri = none)
    (hl : item.hasLoadResponseBody = false)
    (hfresh : ∀ e ∈ s.responseCache, e.id ≠ item.id) :
    ∃ s', add s item cfg o false = some s' ∧
      s'.responseCache.head?.map (fun e => (e.id, e.response.rawBody))
        = some (item.id, item.response.rawBody) := by
  cases hshow : showResponse s item cfg o false with
  | none =>
    have hs := showResponse_isSome_of_noLoad s item cfg o false hl
    rw [hshow] at hs
    simp at hs
  | some r =>
    have hid := showResponse_snd_id s item cfg o false r hshow
    have hraw := showResponse_fail_raw s item cfg o r hb hu hl hfresh hshow
    refine ⟨addToCache r.1 cfg r.2.1, by simp [add, hshow], ?_⟩
    have hcap : capacity cfg ≠ 0 := Nat.pos_iff_ne_zero.mp (capacity_pos cfg)
    simp [addToCache, List.head?_take, hcap, hid, hraw]

theorem c1_amended_witness :
    ∃ s', add demoStore demoItem c4Cfg demoOracle false = some s' ∧
      s'.responseCache.head?.map (fun e => (e.id, e.response.rawBody))
        = some (demoItem.id, demoItem.response.rawBody) :=
  c1_amended_failed_persistence_keeps_item demoStore demoItem c4Cfg demoOracle
    (by decide) rfl rfl (by decide)

/-- Claim C3 counterexample: after a successful shrink followed by a
completed load, the item holds both a durable copy (responseUri set) and a
resident raw byte body while no load is in progress (the rehydration
operation has been removed) — against the exactly-one-of invariant. -/
theorem c3_counterexample :
    (loadResponseBody (shrink demoStore demoItem true).1 (shrink demoStore demoItem true).2).map
      (fun p => (p.2.responseUri.isSome, p.2.response.rawBody.isSome, p.2.hasLoadResponseBody))
      = some (true, true, false) := by
  decide

/-- Claim C3 amended: after a successful shrink the exactly-one-of
invariant holds: all large fields are cleared, the durable uri is recorded
and the rehydration operation is installed. After a completed load,
however, the item permanently holds both the resident raw body and the
durable responseUri (with the rehydration operation removed) — not only
transiently while a load is in progress. -/
theorem c3_amended_xor_only_until_load (s : Store) (item : ResponseItem) (b : Bytes)
    (hb : item.response.rawBody = some b) (hu : item.responseUri = none) :
    ((shrink s item true).2.response.rawBody = none ∧
      (shrink s item true).2.response.body = none ∧
      (shrink s item true).2.response.parsedBody = none ∧
      (shrink s item true).2.response.prettyPrintBody = none ∧
      (shrink s item true).2.response.requestBody = none ∧
      (shrink s item true).2.responseUri = some s.nextUri ∧
      (shrink s item true).2.isCachedResponse = true ∧
      (shrink s item true).2.hasLoadResponseBody = true) ∧
    (loadResponseBody (shrink s item true).1 (shrink s item true).2).map
      (fun p => (p.2.response.rawBody, p.2.responseUri, p.2.hasLoadResponseBody))
      = some (some b, some s.nextUri, false) := by
  constructor
  · simp [shrink, writeFile, hb, hu, shrinkResponseItem]
  · simp [shrink, writeFile, hb, hu, shrinkResponseItem, loadResponseBody, lookupStorage,
      List.find?_cons]

theorem c3_amended_xor_only_until_load_witness :
    ((shrink demoStore demoItem true).2.response.rawBody = none ∧
      (shrink demoStore demoItem true).2.response.body = none ∧
      (shrink demoStore demoItem true).2.response.parsedBody = none ∧
      (shrink demoStore demoItem true).2.response.prettyPrintBody = none ∧
      (shrink demoStore demoItem true).2.response.requestBody = none ∧
      (shrink demoStore demoItem true).2.responseUri = some demoStore.nextUri ∧
      (shrink demoStore demoItem true).2.isCachedResponse = true ∧
      (shrink demoStore demoItem true).2.hasLoadResponseBody = true) ∧
    (loadResponseBody (shrink demoStore demoItem true).1 (shrink demoStore demoItem true).2).map
      (fun p => (p.2.response.rawBody, p.2.responseUri, p.2.hasLoadResponseBody))
      = some (some [1, 2, 3], some demoStore.nextUri, false) :=
  c3_amended_xor_only_until_load demoStore demoItem [1, 2, 3] rfl rfl

/-- Claim C9 counterexample: with auto pretty-print enabled and the
formatting command reporting failure on the active surface, the surface is
not recorded in the deferred queue (against the claim that a failure is
what gets recorded); moreover a queued surface sitting at index 0 is not
retried when it becomes active. -/
theorem c9_counterexample :
    (showResponse demoStore c5Item c9Cfg c9FailOracle true).map
      (fun r => r.1.prettyPrintDocuments) = some [] ∧
    onDidChangeActiveTextEditor { demoStore with prettyPrintDocuments := [5] } (some 5) true
      = { demoStore with prettyPrintDocuments := [5] } := by
  constructor <;> decide

/-- Claim C9 amended: when an item is shown with pretty-print enabled and
an active surface, the surface is recorded in the deferred queue exactly
when the formatting command reports success (a failure records nothing);
when an editor whose uri sits in the queue at index j becomes active, a
truthiness slip makes index 0 unmatched (nothing happens for j = 0), while
for j at least 1 the store reruns the formatting pass (appending the uri
again on success) and splices the consumed entry out. -/
theorem shrink_fst_queue (s : Store) (item : ResponseItem) (w : Bool) :
    ((shrink s item w).1).prettyPrintDocuments = s.prettyPrintDocuments :=
  (shrink_fst_fields s item w).1

theorem c9_amended_record_on_success (s : Store) (item : ResponseItem) (cfg : Config)
    (o : ShowOracle) (w : Bool) (u : Nat)
    (hsf : item.saveFileFlag = false) (hnv : item.noResponseViewFlag = true)
    (hpp : cfg.responseViewPrettyPrint = true) (hae : o.activeEditor = some u) :
    ((showResponse s item cfg o w).map (fun r => r.1.prettyPrintDocuments)
      = some (if o.formatOk then s.prettyPrintDocuments ++ [u]
          else s.prettyPrintDocuments)) ∧
    (∀ (s2 : Store) (j : Nat) (ok : Bool),
      s2.prettyPrintDocuments.findIdx? (fun d => d == u) = some j →
      (j = 0 → onDidChangeActiveTextEditor s2 (some u) ok = s2) ∧
      (1 ≤ j → (onDidChangeActiveTextEditor s2 (some u) ok).prettyPrintDocuments
        = (if ok then s2.prettyPrintDocuments.eraseIdx j ++ [u]
            else s2.prettyPrintDocuments.eraseIdx j))) := by
  constructor
  · unfold showResponse
    rw [if_neg (by simp [hsf]), if_pos hnv]
    cases hf : o.formatOk <;>
      simp [shrink_fst_queue, showPretty, prettyPrint, hpp, hae, hf]
  · intro s2 j ok hfind
    have hlt : j < s2.prettyPrintDocuments.length := by
      have := findIdx?_lt_length _ s2.prettyPrintDocuments 0 j hfind
      omega
    constructor
    · intro hj
      subst hj
      simp [onDidChangeActiveTextEditor, hfind]
    · intro hj
      have hne : ¬((j : Int) = 0) := by omega
      have hge : (0 : Int) ≤ (j : Int) := by omega
      simp only [onDidChangeActiveTextEditor, hfind, hne, if_false, if_pos hge,
        Int.toNat_natCast]
      cases hok : ok with
      | false =>
        simp [prettyPrint, hok]
      | true =>
        simp only [prettyPrint, if_pos rfl, if_true]
        rw [List.eraseIdx_append_of_lt_length hlt]

theorem c9_amended_record_on_success_witness :
    ((showResponse demoStore c5Item c9Cfg c9GoodOracle true).map
        (fun r => r.1.prettyPrintDocuments)
      = some (if c9GoodOracle.formatOk then demoStore.prettyPrintDocuments ++ [5]
          else demoStore.prettyPrintDocuments)) ∧
    (onDidChangeActiveTextEditor c9QueueStore (some 5) true = c9QueueStore) ∧
    ((onDidChangeActiveTextEditor c9QueueStore2 (some 5) true).prettyPrintDocuments
      = (if true then c9QueueStore2.prettyPrintDocuments.eraseIdx 1 ++ [5]
          else c9QueueStore2.prettyPrintDocuments.eraseIdx 1)) :=
  ⟨(c9_amended_record_on_success demoStore c5Item c9Cfg c9GoodOracle true 5 rfl rfl rfl rfl).1,
    ((c9_amended_record_on_success demoStore c5Item c9Cfg c9GoodOracle true 5
        rfl rfl rfl rfl).2 c9QueueStore 0 true (by decide)).1 rfl,
    ((c9_amended_record_on_success demoStore c5Item c9Cfg c9GoodOracle true 5
        rfl rfl rfl rfl).2 c9QueueStore2 1 true (by decide)).2 (by decide)⟩

theorem take_append_take (n : Nat) (xs ys : List Nat) :
    (xs ++ ys.take n).take n = (xs ++ ys).take n := by
  rw [List.take_append_eq_append_take, List.take_take, List.take_append_eq_append_take]
  have hmin : (n - xs.length) ⊓ n = n - xs.length := by omega
  rw [hmin]

theorem showResponse_good (s : Store) (item : ResponseItem) (cfg : Config) (o : ShowOracle)
    (ho : item.openWith = none) :
    ∃ t lg, showResponse s item cfg o true
        = some ((shrink t item true).1, (shrink t item true).2, lg) ∧
      t.responseCache = s.responseCache ∧ t.storage = s.storage ∧ t.nextUri = s.nextUri := by
  by_cases hsf : item.saveFileFlag
  · refine ⟨showPretty { s with silentSaves := s.silentSaves + 1 } cfg o,
      [HandlerKind.saveFile], ?_, ?_, ?_, ?_⟩
    · unfold showResponse
      rw [if_pos hsf]
    · rw [(showPretty_fields _ cfg o).2.1]
    · rw [(showPretty_fields _ cfg o).2.2.1]
    · rw [(showPretty_fields _ cfg o).2.2.2]
  · by_cases hnv : item.noResponseViewFlag
    · refine ⟨showPretty s cfg o,
        [HandlerKind.saveFile, HandlerKind.noResponseView], ?_, ?_, ?_, ?_⟩
      · unfold showResponse
        rw [if_neg hsf, if_pos hnv]
      · rw [(showPretty_fields _ cfg o).2.1]
      · rw [(showPretty_fields _ cfg o).2.2.1]
      · rw [(showPretty_fields _ cfg o).2.2.2]
    · refine ⟨showPretty { s with previews := s.previews + 1 } cfg o,
        [HandlerKind.saveFile, HandlerKind.noResponseView, HandlerKind.openWithViewer,
          HandlerKind.preview], ?_, ?_, ?_, ?_⟩
      · unfold showResponse
        rw [if_neg hsf, if_neg hnv,
          show openWithStep s item o.openWithWriteOk = some (s, item, false) from
            by simp [openWithStep, ho]]
        rfl
      · rw [(showPretty_fields _ cfg o).2.1]
      · rw [(showPretty_fields _ cfg o).2.2.1]
      · rw [(showPretty_fields _ cfg o).2.2.2]

theorem add_good (s : Store) (item : ResponseItem) (cfg : Config) (o : ShowOracle)
    (hg : goodItem item) :
    ∃ s', add s item cfg o true = some s' ∧
      s'.responseCache.map ResponseItem.id
        = (item.id :: s.responseCache.map ResponseItem.id).take (capacity cfg) ∧
      s'.responseCache.length ≤ capacity cfg ∧
      s'.storage = (s.nextUri, item.response.rawBody.getD []) :: s.storage := by
  obtain ⟨hb, hu, _hl, ho⟩ := hg
  obtain ⟨b, hb'⟩ := Option.isSome_iff_exists.mp hb
  obtain ⟨t, lg, hshow, hc, hst, hn⟩ := showResponse_good s item cfg o ho
  refine ⟨addToCache (shrink t item true).1 cfg (shrink t item true).2,
    by simp [add, hshow], ?_, ?_, ?_⟩
  · simp [addToCache, shrink, writeFile, hb', hu, List.map_take, updateCache_map_id, hc]
  · simp [addToCache, List.length_take]
  · simp [addToCache, shrink, writeFile, hb', hu, hst, hn]

theorem addSeq_good (cfg : Config) (o : ShowOracle) :
    ∀ (l : List ResponseItem) (s : Store),
      (∀ it ∈ l, goodItem it) →
      s.responseCache.length ≤ capacity cfg →
      ∃ s', addSeq cfg o s l = some s' ∧
        s'.responseCache.map ResponseItem.id
          = ((l.reverse.map ResponseItem.id) ++ s.responseCache.map ResponseItem.id).take
              (capacity cfg) ∧
        (∀ e ∈ s.storage, e ∈ s'.storage) := by
  intro l
  induction l with
  | nil =>
    intro s _hg hlen
    refine ⟨s, rfl, ?_, fun e he => he⟩
    simp only [List.reverse_nil, List.map_nil, List.nil_append]
    rw [List.take_of_length_le (by simpa using hlen)]
  | cons a rest ih =>
    intro s hg hlen
    obtain ⟨s1, hadd, hmap, hlen1, hsteq⟩ := add_good s a cfg o (hg a (by simp))
    obtain ⟨s2, hseq, hmap2, hmem2⟩ := ih s1 (fun it hit => hg it (by simp [hit])) hlen1
    refine ⟨s2, ?_, ?_, ?_⟩
    · simp [addSeq, hadd, hseq]
    · rw [hmap2, hmap, take_append_take]
      simp [List.reverse_cons]
    · intro e he
      exact hmem2 e (by rw [hsteq]; exact List.mem_cons_of_mem _ he)

/-- Claim C2 counterexample: with maxHistoryItems = 1, two sequential
successful adds (items with ids 7 and 8, the first persisting blob
[1, 2, 3] under uri 0) leave the history holding only the second item —
but the durable copy of the evicted first item is still present in durable
storage, against the claim that it has been deleted. -/
theorem c2_counterexample :
    (addSeq c2Cfg demoOracle demoStore [demoItem, c2ItemB]).map
      (fun s => (s.responseCache.map ResponseItem.id, lookupStorage s.storage 0))
      = some ([8], some [1, 2, 3]) := by
  decide

/-- Claim C2 amended: given maxHistoryItems = N (N positive) and N + 1
sequential successful adds of fresh items with distinct ids, the item added
first is absent from history afterwards — but its durable copy has NOT
been deleted: capacity trimming truncates the history array without
touching durable storage, and only an explicit remove or clear deletes a
blob. The blob of the first item is still present in storage. -/
theorem c2_amended_evicted_blob_retained (s0 : Store) (cfg : Config) (o : ShowOracle)
    (i0 : ResponseItem) (rest : List ResponseItem) (b0 : Bytes) (n : Nat)
    (hN : cfg.maxHistoryItems = n) (hNpos : 0 < n)
    (hg0 : goodItem i0) (hb0 : i0.response.rawBody = some b0)
    (hgr : ∀ it ∈ rest, goodItem it)
    (hids : ∀ it ∈ rest, it.id ≠ i0.id)
    (hlen : rest.length = n) :
    ∃ s', addSeq cfg o s0 (i0 :: rest) = some s' ∧
      (∀ e ∈ s'.responseCache, e.id ≠ i0.id) ∧
      (s0.nextUri, b0) ∈ s'.storage := by
  have hcap : capacity cfg = n := by
    unfold capacity
    rw [hN, if_neg (by omega)]
  obtain ⟨s1, hadd, hmap1, hlen1, hsteq⟩ := add_good s0 i0 cfg o hg0
  obtain ⟨s2, hseq, hmap2, hmem2⟩ := addSeq_good cfg o rest s1 hgr hlen1
  refine ⟨s2, ?_, ?_, ?_⟩
  · simp [addSeq, hadd, hseq]
  · intro e he
    have hmem : e.id ∈ s2.responseCache.map ResponseItem.id := List.mem_map_of_mem _ he
    rw [hmap2, hmap1, take_append_take] at hmem
    have hlenA : (rest.reverse.map ResponseItem.id).length = capacity cfg := by
      simp [hlen, hcap]
    rw [List.take_left' hlenA] at hmem
    obtain ⟨it, hit, heq⟩ := List.mem_map.mp hmem
    exact heq ▸ hids it (List.mem_reverse.mp hit)
  · apply hmem2
    rw [hsteq]
    simp [hb0]

theorem c2_amended_evicted_blob_retained_witness :
    ∃ s', addSeq c2Cfg demoOracle demoStore [demoItem, c2ItemB] = some s' ∧
      (∀ e ∈ s'.responseCache, e.id ≠ demoItem.id) ∧
      (demoStore.nextUri, [1, 2, 3]) ∈ s'.storage :=
  c2_amended_evicted_blob_retained demoStore c2Cfg demoOracle demoItem [c2ItemB]
    [1, 2, 3] 1 rfl (by decide) (by decide) rfl (by decide) (by decide) rfl
